import Mathlib

/-!
Verification of the PyOFS observation-data acquisition scripts.

Shallow embedding of:
* `dataset/ndbc.py` — NDBC buoy stations (`NDBCStation`, `NDBCRange`);
* `PyOFS/observation/jason3.py` — SMAP sea-surface-salinity rasters
  (`Jason3Dataset`);
* `main/json_dir_structure.py` — `get_directory_structure`.

Python values are modelled with `Rat` for floats (missing values / NaN are
modelled with `Option` or with an explicit mask flag where the code uses
`numpy.ma`), `Int` for timestamps, and `Except PyExc` for code that can
raise.  Nondeterministic completion order of thread-pool futures is
modelled by quantifying over an arbitrary list of completions.
-/

set_option autoImplicit false
set_option maxRecDepth 16384

namespace PyOFS

/-- The Python exceptions that the modelled code can raise or inspect. -/
inductive PyExc where
  /-- `_utilities.NoDataError` / `utilities.NoDataError`. -/
  | noDataError (msg : String)
  /-- `AttributeError`, raised when an unbound attribute is read. -/
  | attributeError (attr : String)
  /-- any other exception, identified by its type name. -/
  | other (typeName : String)
  deriving DecidableEq, Repr

/-- `MEASUREMENT_VARIABLES` from `dataset/ndbc.py`. -/
def MEASUREMENT_VARIABLES : List String :=
  ["water_temperature", "conductivity", "salinity", "o2_saturation",
   "dissolved_oxygen", "chlorophyll_concentration", "turbidity",
   "water_ph", "water_eh"]

/-- A measurement sample: value together with its `numpy.ma` mask flag
(`true` = masked / missing). -/
abbrev Sample := Rat × Bool

/-- The station state held by a successfully constructed `NDBCStation`:
coordinates, the `time` axis, and the per-variable measurement series
(aligned with `timeData`; an entry per time step). -/
structure StationDataset where
  longitude : Rat
  latitude : Rat
  timeData : List Int
  series : String → List Sample

/-- The station OpenDAP URL built in `NDBCStation.__init__` (line 57). -/
def stationUrl (station : String) : String :=
  "https://dods.ndbc.noaa.gov/thredds/dodsC/data/ocean/" ++ station ++ "/"
    ++ station ++ "o9999.nc"

namespace NDBCStation

/-- `NDBCStation.__init__` (lines 59-65): the body tries
`xarray.open_dataset` and the coordinate reads, and on ANY failure
(bare `except:`) raises `NoDataError`.  The argument is the outcome of
the remote open: the dataset, or the exception it raised. -/
def init (station : String) (fetch : Except PyExc StationDataset) :
    Except PyExc StationDataset :=
  match fetch with
  | .ok ds => .ok ds
  | .error _ => .error (.noDataError ("No NDBC dataset found at " ++ stationUrl station))

/-- `numpy.searchsorted` with the default side `left` on a sorted axis:
the number of elements strictly below `t`. -/
def npSearchsorted (xs : List Int) (t : Int) : Nat :=
  (xs.filter (fun x => x < t)).length

/-- Python slice `xs[i:j]`. -/
def sliceList {α : Type} (xs : List α) (i j : Nat) : List α :=
  (xs.take j).drop i

/-- `NDBCStation.data` (lines 70-95): the returned dict maps every
measurement variable to `None`, unless the half-open index interval
selected by `searchsorted` is nonempty, in which case each variable maps
to the slice `[start_index:end_index]` of its series.  (A lookup of a key
outside `MEASUREMENT_VARIABLES` is also modelled as `none`.) -/
def data (st : StationDataset) (startT endT : Int) : String → Option (List Sample) :=
  let startIndex := npSearchsorted st.timeData startT
  let endIndex := npSearchsorted st.timeData endT
  fun v =>
    if v ∈ MEASUREMENT_VARIABLES ∧ startIndex < endIndex then
      some (sliceList (st.series v) startIndex endIndex)
    else
      none

end NDBCStation

/-- The outcome of one thread-pool task `NDBCStation(station_name)`:
either the constructed station object or the exception the task raised. -/
inductive FetchOutcome where
  | success (ds : StationDataset)
  | failure (e : PyExc)

namespace NDBCRange

/-- The instance attributes assigned by `NDBCRange.__init__` before the
completion loop runs (lines 116-124).  `logger` is not among them. -/
def initAssignedAttrs : List String :=
  ["start_datetime", "end_datetime", "station_names", "stations"]

/-- Class-level attributes of `NDBCRange`: there are none. -/
def classAttrs : List String := []

/-- Python attribute lookup on an `NDBCRange` object during `__init__`:
it succeeds exactly when the name was assigned on the instance or exists
on the class. -/
def hasAttr (a : String) : Bool :=
  initAssignedAttrs.contains a || classAttrs.contains a

/-- One iteration of the `as_completed` loop of `NDBCRange.__init__`
(lines 131-138) on the accumulated `stations` entries.  When the task
raised `NoDataError` the `type(...) is not NoDataError` guard fails and
the station is skipped; otherwise `completed_future.result()` re-raises
any other exception, and on a successful result the read of
`self.logger` (line 136) raises `AttributeError` unless the attribute
exists, after which the station would be stored. -/
def processStep (stations : List (String × StationDataset)) (name : String)
    (o : FetchOutcome) : Except PyExc (List (String × StationDataset)) :=
  match o with
  | .failure (.noDataError _) => .ok stations
  | .failure e => .error e
  | .success ds =>
      if hasAttr "logger" then
        .ok (stations ++ [(name, ds)])
      else
        .error (.attributeError "logger")

/-- The whole `as_completed` loop, for a given completion order. -/
def processCompleted :
    List (String × FetchOutcome) → List (String × StationDataset) →
      Except PyExc (List (String × StationDataset))
  | [], stations => .ok stations
  | (name, o) :: rest, stations =>
      match processStep stations name o with
      | .ok stations2 => processCompleted rest stations2
      | .error e => .error e

/-- `NDBCRange.__init__`, from the completion loop onward (lines
127-144), for a given order of task completions: run the loop, then
raise `NoDataError` when the `stations` dict is empty.  (The source
message interpolates the interval endpoints.) -/
def init (completions : List (String × FetchOutcome)) :
    Except PyExc (List (String × StationDataset)) :=
  match processCompleted completions [] with
  | .error e => .error e
  | .ok stations =>
      if stations.length = 0 then
        .error (.noDataError "No NDBC datasets found in the given time interval.")
      else
        .ok stations

end NDBCRange

/-- Sum of a list of rationals. -/
def listSum (xs : List Rat) : Rat := xs.foldl (· + ·) 0

/-- `numpy.ma.count`: the number of unmasked entries of a series. -/
def maCount (xs : List Sample) : Nat := (xs.filter (fun p => !p.2)).length

/-- The sum of a `numpy.ma` series: masked entries contribute nothing. -/
def maSum (xs : List Sample) : Rat :=
  xs.foldl (fun s p => if p.2 then s else s + p.1) 0

/-- `numpy.ma.mean`: masked-aware sum over masked-aware count.  (On a
series with no unmasked entry numpy returns the `masked` constant; the
`Rat` convention `x / 0 = 0` stands in for that degenerate case, on which
no claim depends.) -/
def maMean (xs : List Sample) : Rat := maSum xs / maCount xs

/-- The unmasked (non-missing) values of a series, in order. -/
def unmaskedValues (xs : List Sample) : List Rat :=
  (xs.filter (fun p => !p.2)).map Prod.fst

/-- `float(numpy.ma.mean(x))` as applied in `write_vector` (lines
197-208): the dict value fed to it is either a series or `None`, and
`numpy.ma.mean(None)` raises a `TypeError`. -/
def floatMaMean : Option (List Sample) → Except PyExc Rat
  | some xs => .ok (maMean xs)
  | none => .error (.other "TypeError")

/-- One record appended to `layer_records` in `write_vector` (lines
194-212): the point geometry is the station position, and the properties
are the name, the coordinates, and one averaged value per measurement
variable. -/
structure VectorRecord where
  name : String
  longitude : Rat
  latitude : Rat
  props : List (String × Rat)
  deriving Repr

namespace NDBCRange

/-- The averaged measurement properties of one record, evaluated in
`MEASUREMENT_VARIABLES` order (lines 197-208); the first `float(...)`
call that raises aborts `write_vector`. -/
def recordProps (data : String → Option (List Sample)) :
    List String → Except PyExc (List (String × Rat))
  | [] => .ok []
  | v :: vs =>
      match floatMaMean (data v), recordProps data vs with
      | .ok m, .ok rest => .ok ((v, m) :: rest)
      | .error e, _ => .error e
      | .ok _, .error e => .error e

/-- The record built for one station (lines 190-212). -/
def makeRecord (name : String) (st : StationDataset)
    (data : String → Option (List Sample)) : Except PyExc VectorRecord :=
  (recordProps data MEASUREMENT_VARIABLES).map fun ps =>
    { name := name, longitude := st.longitude, latitude := st.latitude, props := ps }

/-- The `logger` attribute of an `NDBCRange` object: `none` models an
unbound attribute (reading it raises `AttributeError`); `some b` a bound
attribute with `b` the truth of `logger is not None`.  Derived from the
attribute model: `logger` is never assigned, so the attribute is
unbound. -/
def loggerAttr : Option Bool := if hasAttr "logger" then some false else none

/-- `NDBCRange.write_vector` (lines 146-216) on a given `stations` dict,
parameterised by the state of the `logger` attribute.  The concurrent
per-station `data` fetch keeps every station: the returned dict is never
`None`, so the `result is not None` filter always passes.  Dict
iteration order is the (nondeterministic) completion order, modelled by
the order of the given list.  The read of `self.logger` at line 184
raises `AttributeError` when the attribute is unbound; otherwise one
record per station is built and the list is handed to
`layer.writerecords`. -/
def writeVectorWith (logger : Option Bool)
    (stations : List (String × StationDataset)) (startT endT : Int) :
    Except PyExc (List VectorRecord) :=
  match logger with
  | none => .error (.attributeError "logger")
  | some _ =>
      stations.mapM fun p =>
        makeRecord p.1 p.2 (NDBCStation.data p.2 startT endT)

/-- `NDBCRange.write_vector` as the source has it: `self.logger` is
unbound on every `NDBCRange` object. -/
def write_vector (stations : List (String × StationDataset))
    (startT endT : Int) : Except PyExc (List VectorRecord) :=
  writeVectorWith loggerAttr stations startT endT

end NDBCRange

/-- A calendar timestamp `datetime.datetime(year, month, day)`; the
modelled code never uses finer resolution. -/
structure PyDatetime where
  year : Int
  month : Int
  day : Int
  deriving DecidableEq, Repr

/-- Georeferenced bounds `(west, south, east, north)`, the tuple order of
`shapely` `.bounds` and of `rasterio` bounds. -/
structure GeoBounds where
  west : Rat
  south : Rat
  east : Rat
  north : Rat
  deriving DecidableEq, Repr

/-- An affine geotransform `Affine(a, 0, c, 0, e, f)`; the modelled code
only produces axis-aligned transforms, so the shear terms are omitted. -/
structure Affine where
  a : Rat
  c : Rat
  e : Rat
  f : Rat
  deriving DecidableEq, Repr

/-- `rasterio.transform.from_origin(west, north, xsize, ysize)`, which is
`Affine.translation(west, north) * Affine.scale(xsize, -ysize)`. -/
def fromOrigin (west north xsize ysize : Rat) : Affine :=
  { a := xsize, c := west, e := -ysize, f := north }

/-- `rasterio.transform.array_bounds(height, width, transform)`: the
georeferenced bounds of a raster with the given shape and transform. -/
def arrayBounds (height width : Nat) (t : Affine) : GeoBounds :=
  { west := t.c, south := t.f + t.e * height,
    east := t.c + t.a * width, north := t.f }

/-- `numpy.diff`: consecutive differences. -/
def npDiff : List Rat → List Rat
  | [] => []
  | [_] => []
  | x :: y :: rest => (y - x) :: npDiff (y :: rest)

/-- `numpy.mean`.  (The empty mean, NaN in numpy, is modelled by the
`Rat` convention `x / 0 = 0`; no claim depends on it.) -/
def npMean (xs : List Rat) : Rat := listSum xs / xs.length

/-- `shapely` `.bounds` of a geometry: (min x, min y, max x, max y) over
its coordinates.  (The empty geometry, whose bounds are an empty tuple in
shapely, is mapped to zero bounds; no claim depends on it.) -/
def shapelyBounds : List (Rat × Rat) → GeoBounds
  | [] => { west := 0, south := 0, east := 0, north := 0 }
  | c :: rest =>
      rest.foldl
        (fun b p =>
          { west := min b.west p.1, south := min b.south p.2,
            east := max b.east p.1, north := max b.north p.2 })
        { west := c.1, south := c.2, east := c.1, north := c.2 }

/-- Whether a coordinate axis is non-decreasing, as `pandas` classifies a
monotonic index when resolving a label slice. -/
def axisAscending (xs : List Rat) : Bool :=
  (npDiff xs).all fun d => decide (0 ≤ d)

/-- `xarray` label slicing `.sel(axis=slice(s, e))` on a monotonic
coordinate axis: on an ascending axis a slice whose endpoints are in
ascending order keeps the labels between them (inclusive) and any other
slice is empty; symmetrically on a descending axis. -/
def selSlice (xs : List Rat) (s e : Rat) : List Rat :=
  if axisAscending xs then
    if s ≤ e then xs.filter (fun x => decide (s ≤ x) && decide (x ≤ e)) else []
  else
    if e ≤ s then xs.filter (fun x => decide (e ≤ x) && decide (x ≤ s)) else []

/-- A two-dimensional float array; `none` models NaN. -/
abbrev Grid := List (List (Option Rat))

/-- The remote SMAP dataset together with the study-area polygon file, as
seen by `Jason3Dataset.__init__`. -/
structure Jason3Env where
  /-- `dataset['longitude'].values` of the full granule. -/
  lons : List Rat
  /-- `dataset['latitude'].values` of the full granule. -/
  lats : List Rat
  /-- `dataset['times'].values`. -/
  times : List PyDatetime
  /-- the `smap_sss` cell value at (time, latitude, longitude). -/
  sss : PyDatetime → Rat → Rat → Option Rat
  /-- coordinates of the first record of the study-area layer. -/
  polygon : List (Rat × Rat)

/-- The class-level state of `Jason3Dataset` (lines 42-45). -/
structure Jason3ClassState where
  study_area_transform : Option Affine
  study_area_extent : Option (List (Rat × Rat))
  study_area_bounds : Option GeoBounds
  study_area_coordinates : Option (List Rat × List Rat)

/-- The initial class state: all four class attributes are `None`. -/
def Jason3ClassState.initial : Jason3ClassState :=
  { study_area_transform := none, study_area_extent := none,
    study_area_bounds := none, study_area_coordinates := none }

/-- A `Jason3Dataset` object after `__init__`: the environment plus the
spatially sliced dataset axes. -/
structure Jason3Instance where
  env : Jason3Env
  selLons : List Rat
  selLats : List Rat

namespace Jason3Dataset

/-- `Jason3Dataset.__init__` (lines 81-104) after the remote open: pixel
sizes are the mean consecutive differences of the full coordinate axes;
the study-area polygon is loaded, and `study_area_extent`,
`study_area_bounds` and `study_area_transform` assigned, only when
`study_area_extent` is `None`; the dataset is then sliced to the cached
bounds (longitude `west..east`, latitude `north..south`); and
`study_area_coordinates` is assigned from the sliced axes only when it
is `None`.  Returns the new class state, the instance, and the number of
polygon-file loads performed. -/
def init (cls : Jason3ClassState) (env : Jason3Env) :
    Jason3ClassState × Jason3Instance × Nat :=
  let lonPixelSize := npMean (npDiff env.lons)
  let latPixelSize := npMean (npDiff env.lats)
  let loaded :=
    match cls.study_area_extent with
    | none =>
        let extent := env.polygon
        let bounds := shapelyBounds extent
        ({ cls with
            study_area_extent := some extent,
            study_area_bounds := some bounds,
            study_area_transform :=
              some (fromOrigin bounds.west bounds.north lonPixelSize latPixelSize) },
         1)
    | some _ => (cls, 0)
  let cls1 := loaded.1
  let axes :=
    match cls1.study_area_bounds with
    | some b => (selSlice env.lons b.west b.east, selSlice env.lats b.north b.south)
    | none => (env.lons, env.lats)
  let cls2 :=
    match cls1.study_area_coordinates with
    | none => { cls1 with study_area_coordinates := some axes }
    | some _ => cls1
  (cls2, { env := env, selLons := axes.1, selLats := axes.2 }, loaded.2)

/-- `Jason3Dataset._sss` (lines 140-154): clamp the requested time to the
16th of its month, then return that time slice of `smap_sss` over the
sliced axes, or raise `NoDataError` when the month is absent.  (The
source message interpolates the formatted time.) -/
def sssData (inst : Jason3Instance) (dataTime : PyDatetime) : Except PyExc Grid :=
  let t : PyDatetime := { year := dataTime.year, month := dataTime.month, day := 16 }
  if t ∈ inst.env.times then
    .ok (inst.selLats.map fun la => inst.selLons.map fun lo => inst.env.sss t la lo)
  else
    .error (.noDataError "No data exists for the requested time.")

/-- `Jason3Dataset.data` (lines 124-138): `output_data` stays `None`
unless the variable is `'sss'`, in which case `_sss` is consulted (and
may raise). -/
def dataVar (inst : Jason3Instance) (dataTime : PyDatetime) (varName : String) :
    Except PyExc (Option Grid) :=
  if varName = "sss" then (sssData inst dataTime).map some else .ok none

end Jason3Dataset

/-- A raster file as written by `rasterio.open(...).write` in
`write_rasters`: the GDAL creation arguments the code passes (shape,
transform, nodata) plus the cell data. -/
structure RasterFile where
  filename : String
  height : Nat
  width : Nat
  transform : Option Affine
  nodata : Option Rat
  cells : Grid

/-- `numpy.isnan(input_data).all()` on a grid whose NaNs are `none`. -/
def allNaN (g : Grid) : Bool :=
  g.all fun row => row.all fun c => c.isNone

/-- `input_data[numpy.isnan(input_data)] = fill_value` (lines 173-174):
applied only when the fill value is not `None`. -/
def fillNaN (fv : Option Rat) (g : Grid) : Grid :=
  match fv with
  | none => g
  | some v => g.map fun row => row.map fun c => some (c.getD v)

/-- The output file extension chosen per GDAL driver (lines 182-188). -/
def driverExtension (driver : String) : String :=
  if driver = "AAIGrid" then "asc"
  else if driver = "GPKG" then "gpkg"
  else "tiff"

namespace Jason3Dataset

/-- `Jason3Dataset.write_rasters` (lines 156-198): for each variable in
order, retrieve the data (propagating any exception), skip the variable
when the data is `None` or entirely NaN, and otherwise write one raster
file whose shape is the data shape and whose transform is the
class-level `study_area_transform`.  Returns the files written, in
order. -/
def write_rasters (cls : Jason3ClassState) (inst : Jason3Instance)
    (outputDir : String) (dataTime : PyDatetime) (varNames : List String)
    (filenameStem : String) (fillValue : Option Rat) (driver : String) :
    Except PyExc (List RasterFile) :=
  match varNames with
  | [] => .ok []
  | v :: vs =>
      match dataVar inst dataTime v with
      | .error e => .error e
      | .ok none =>
          write_rasters cls inst outputDir dataTime vs filenameStem fillValue driver
      | .ok (some g) =>
          if allNaN g then
            write_rasters cls inst outputDir dataTime vs filenameStem fillValue driver
          else
            let file : RasterFile :=
              { filename := outputDir ++ "/" ++ filenameStem ++ "_" ++ v ++ "."
                  ++ driverExtension driver,
                height := g.length, width := (g.headD []).length,
                transform := cls.study_area_transform, nodata := fillValue,
                cells := fillNaN fillValue g }
            (write_rasters cls inst outputDir dataTime vs filenameStem fillValue
                driver).map (fun fs => file :: fs)

end Jason3Dataset

/-- The georeferenced bounds rasterio assigns to a written raster file,
when its transform is set. -/
def rasterBounds (r : RasterFile) : Option GeoBounds :=
  r.transform.map fun t => arrayBounds r.height r.width t

/-- A Python value as used by `get_directory_structure`: `None` or a
string-keyed dict, modelled as an association list in insertion order. -/
inductive PyVal where
  | pynone
  | pydict (entries : List (String × PyVal))
  deriving Repr

/-- Python dict lookup (`dict.get`): the (unique) matching key, if any. -/
def dictGet (k : String) : List (String × PyVal) → Option PyVal
  | [] => none
  | (k', v) :: rest => if k' = k then some v else dictGet k rest

/-- Python dict assignment `d[k] = v`: overwrite in place, keeping the
key position, or append a new key at the end. -/
def dictSet : List (String × PyVal) → String → PyVal → List (String × PyVal)
  | [], k, v => [(k, v)]
  | (k', v') :: rest, k, v =>
      if k' = k then (k', v) :: rest else (k', v') :: dictSet rest k v

/-- Follow a chain of keys through nested dicts; the nested dict there,
when every step hits a dict. -/
def getPath (d : List (String × PyVal)) : List String → Option (List (String × PyVal))
  | [] => some d
  | f :: fs =>
      match dictGet f d with
      | some (.pydict sub) => getPath sub fs
      | _ => none

/-- `parent = functools.reduce(dict.get, folders[:-1], output_dict)`
followed by `parent[key] = v` (lines 26-27 of
`json_dir_structure.py`), as a functional path update; `none` models the
`TypeError` Python would raise when the reduce does not reach a dict. -/
def setPath (d : List (String × PyVal)) (path : List String) (k : String)
    (v : PyVal) : Option (List (String × PyVal)) :=
  match path with
  | [] => some (dictSet d k v)
  | f :: fs =>
      match dictGet f d with
      | some (.pydict sub) => (setPath sub fs k v).map fun sub2 => dictSet d f (.pydict sub2)
      | _ => none

/-- Replace the whole nested dict at a key path (specification helper
used to state what `setPath` does). -/
def updatePath (d : List (String × PyVal)) (path : List String)
    (newSub : List (String × PyVal)) : Option (List (String × PyVal)) :=
  match path with
  | [] => some newSub
  | f :: fs =>
      match dictGet f d with
      | some (.pydict sub) => (updatePath sub fs newSub).map fun sub2 => dictSet d f (.pydict sub2)
      | _ => none

/-- A filesystem tree: named files and directories. -/
inductive FSEntry where
  | file (name : String)
  | dir (name : String) (children : List FSEntry)

/-- The name of an entry. -/
def FSEntry.name : FSEntry → String
  | .file n => n
  | .dir n _ => n

/-- The file names among a directory's children, in listing order. -/
def fileNames (children : List FSEntry) : List String :=
  children.filterMap fun c =>
    match c with
    | .file n => some n
    | .dir _ _ => none

/-- `dict.fromkeys(files)` (line 25): every file name maps to `None`. -/
def fileEntries (children : List FSEntry) : List (String × PyVal) :=
  (fileNames children).map fun f => (f, .pynone)

mutual

/-- `os.walk(rootdir)` (top-down) restricted to what the code consumes:
for each directory, in parents-before-children order, the pair of its
path — as the component list `path[start:].split(os.sep)`, which starts
at the walk root's base name — and its file names. -/
def walkFrom (pfx : List String) : FSEntry → List (List String × List String)
  | .file _ => []
  | .dir n cs => (pfx ++ [n], fileNames cs) :: walkChildren (pfx ++ [n]) cs

/-- The walk entries contributed by a list of children. -/
def walkChildren (pfx : List String) : List FSEntry → List (List String × List String)
  | [] => []
  | c :: rest => walkFrom pfx c ++ walkChildren pfx rest

end

/-- The dict entries contributed by the subdirectories of a directory
listing: each subdirectory name mapped to the nested dict holding its
files (in listing order, mapped to `None`) followed by its own
subdirectories. -/
def mirrorSubdirs : List FSEntry → List (String × PyVal)
  | [] => []
  | .file _ :: rest => mirrorSubdirs rest
  | .dir n cs :: rest =>
      (n, .pydict (fileEntries cs ++ mirrorSubdirs cs)) :: mirrorSubdirs rest

/-- The nested dict mirroring one directory's contents. -/
def mirrorDir (cs : List FSEntry) : List (String × PyVal) :=
  fileEntries cs ++ mirrorSubdirs cs

/-- Pairwise-distinct child names at every directory of a listing, as a
real filesystem guarantees. -/
def namesOkList : List FSEntry → Bool
  | [] => true
  | .file _ :: rest => namesOkList rest
  | .dir _ cs :: rest =>
      decide ((cs.map FSEntry.name).Nodup) && namesOkList cs && namesOkList rest

/-- The loop body of `get_directory_structure` (lines 23-27), folded over
the walk entries in walk order: split the last path component off
`folders` and `setPath` the files dict there.  `none` models the error
Python would raise on a broken path; it never fires on a real walk. -/
def processWalk :
    List (List String × List String) → List (String × PyVal) →
      Option (List (String × PyVal))
  | [], d => some d
  | (folders, files) :: rest, d =>
      match folders.getLast? with
      | none => none
      | some last =>
          match setPath d folders.dropLast last
              (.pydict (files.map fun f => (f, .pynone))) with
          | none => none
          | some d2 => processWalk rest d2

/-- `get_directory_structure(rootdir)` (lines 16-28): walk the tree from
the root — whose relative paths start at the root's base name, per the
`rstrip`/`rfind` index arithmetic — and fold the walk entries into the
output dict, which starts empty. -/
def get_directory_structure (root : FSEntry) : Option (List (String × PyVal)) :=
  processWalk (walkFrom [] root) []

/-- The names of the subdirectories of a listing, in order. -/
def dirNames : List FSEntry → List String
  | [] => []
  | .file _ :: rest => dirNames rest
  | .dir n _ :: rest => n :: dirNames rest

mutual

/-- Size measure of a filesystem entry, for induction. -/
def entrySize : FSEntry → Nat
  | .file _ => 1
  | .dir _ cs => 1 + listSize cs

/-- Size measure of a listing. -/
def listSize : List FSEntry → Nat
  | [] => 0
  | c :: rest => entrySize c + listSize rest

end

/-- A concrete station dataset used to evaluate the NDBC model: three
time steps; every variable's series has two unmasked samples and one
masked sample. -/
def exampleStation : StationDataset :=
  { longitude := -120, latitude := 35,
    timeData := [10, 20, 30],
    series := fun _ => [(1, false), (3, false), (100, true)] }

/-- A concrete SMAP environment: a half-degree grid with ascending
longitudes, descending latitudes, one available month, no NaN cells, and
a unit-square study-area polygon. -/
def exampleEnv : Jason3Env :=
  { lons := [0, 1/2, 1, 3/2],
    lats := [3/2, 1, 1/2, 0],
    times := [⟨2018, 12, 16⟩],
    sss := fun _ _ _ => some 1,
    polygon := [(0, 0), (1, 0), (1, 1), (0, 1)] }

/-- A concrete directory tree: a root holding one file and one
subdirectory that itself holds one file. -/
def exampleTree : FSEntry :=
  .dir "output" [.file "index.html", .dir "wcofs" [.file "a.tiff"]]

/-- The raster file that `write_rasters` produces on `exampleEnv`. -/
def exampleRaster : RasterFile :=
  { filename := "out/smos_sss.tiff", height := 3, width := 3,
    transform := some { a := 1/2, c := 0, e := 1/2, f := 1 },
    nodata := some (-9999),
    cells := [[some 1, some 1, some 1], [some 1, some 1, some 1],
              [some 1, some 1, some 1]] }

/-! ## Theorems -/

/-- `NDBCRange` objects have no `logger` attribute. -/
theorem hasAttr_logger_eq_false : NDBCRange.hasAttr "logger" = false := by decide

/-- Each step of the completion loop either leaves the `stations` dict
unchanged or raises: a station is never stored. -/
theorem processStep_ok_or_error (acc : List (String × StationDataset))
    (name : String) (o : FetchOutcome) :
    NDBCRange.processStep acc name o = .ok acc ∨
      ∃ e, NDBCRange.processStep acc name o = .error e := by
  match o with
  | .failure (.noDataError m) => exact Or.inl rfl
  | .failure (.attributeError a) => exact Or.inr ⟨_, rfl⟩
  | .failure (.other t) => exact Or.inr ⟨_, rfl⟩
  | .success ds =>
      exact Or.inr ⟨.attributeError "logger",
        by simp [NDBCRange.processStep, hasAttr_logger_eq_false]⟩

/-- The completion loop as a whole either leaves the `stations` dict
unchanged or raises. -/
theorem processCompleted_ok_or_error (completions : List (String × FetchOutcome)) :
    ∀ acc, NDBCRange.processCompleted completions acc = .ok acc ∨
      ∃ e, NDBCRange.processCompleted completions acc = .error e := by
  induction completions with
  | nil => exact fun acc => Or.inl rfl
  | cons p rest ih =>
      intro acc
      obtain ⟨name, o⟩ := p
      rcases processStep_ok_or_error acc name o with h | ⟨e, h⟩
      · rcases ih acc with h2 | ⟨e, h2⟩
        · exact Or.inl (by simp [NDBCRange.processCompleted, h, h2])
        · exact Or.inr ⟨e, by simp [NDBCRange.processCompleted, h, h2]⟩
      · exact Or.inr ⟨e, by simp [NDBCRange.processCompleted, h]⟩

/-- When every completed fetch raised `NoDataError`, the loop stores
nothing. -/
theorem processCompleted_all_noData (completions : List (String × FetchOutcome))
    (h : ∀ p ∈ completions, ∃ m, p.2 = FetchOutcome.failure (.noDataError m)) :
    ∀ acc, NDBCRange.processCompleted completions acc = .ok acc := by
  induction completions with
  | nil => exact fun acc => rfl
  | cons p rest ih =>
      intro acc
      obtain ⟨m, hm⟩ := h p (List.mem_cons_self p rest)
      obtain ⟨name, o⟩ := p
      simp only at hm
      subst hm
      have := ih (fun q hq => h q (List.mem_cons_of_mem _ hq)) acc
      simpa [NDBCRange.processCompleted, NDBCRange.processStep] using this

/-- C1 counterexample: a station whose fetch raised a non-`NoDataError`
exception is not swallowed and omitted.  With a single such station,
swallowing would leave zero stations and construction would end in the
`NoDataError` of line 142; instead the fetched exception itself
propagates out of the constructor (re-raised by
`completed_future.result()`), so construction does not continue. -/
theorem c1_other_exception_propagates_cex :
    NDBCRange.init [("46025", .failure (.other "RuntimeError"))]
        = .error (.other "RuntimeError") ∧
    NDBCRange.init []
        = .error (.noDataError "No NDBC datasets found in the given time interval.") ∧
    (Except.error (PyExc.other "RuntimeError") :
        Except PyExc (List (String × StationDataset)))
      ≠ .error (.noDataError "No NDBC datasets found in the given time interval.") := by
  refine ⟨rfl, rfl, ?_⟩
  simp

/-- C1 amended: in the completion loop of `NDBCRange.__init__`, a station
whose fetch raised `NoDataError` is swallowed and omitted while
processing continues with the remaining completions; a fetch exception of
any other type is re-raised by `completed_future.result()` and
propagates, aborting construction. -/
theorem c1_exception_filtering_amended :
    (∀ name m rest acc,
        NDBCRange.processCompleted ((name, .failure (.noDataError m)) :: rest) acc
          = NDBCRange.processCompleted rest acc) ∧
    (∀ name e rest acc, (∀ m, e ≠ PyExc.noDataError m) →
        NDBCRange.processCompleted ((name, .failure e) :: rest) acc
          = .error e) := by
  constructor
  · intro name m rest acc
    rfl
  · intro name e rest acc he
    match e with
    | .noDataError m => exact absurd rfl (he m)
    | .attributeError a => rfl
    | .other t => rfl

/-- Witness for the amended C1 at a concrete completion list: the
`NoDataError` station is skipped, the `OSError` station aborts the
loop. -/
theorem c1_exception_filtering_amended_witness :
    NDBCRange.processCompleted
        [("46025", .failure (.noDataError "no data")),
         ("46026", .failure (.other "OSError"))] []
      = .error (.other "OSError") := by
  have h := c1_exception_filtering_amended
  rw [h.1 "46025" "no data" _ []]
  exact h.2 "46026" (.other "OSError") [] []
    (fun m hm => PyExc.noConfusion hm)

/-- C2: processing a successfully fetched station in `NDBCRange.__init__`
raises `AttributeError` on the unbound `self.logger` (line 136) before
the station is stored; consequently the `stations` dict never becomes
non-empty and `NDBCRange` construction always raises (with
`AttributeError`, the re-raised fetch exception, or the final
`NoDataError`) rather than completing. -/
theorem c2_logger_attribute_error :
    (∀ name ds rest acc,
        NDBCRange.processCompleted ((name, .success ds) :: rest) acc
          = .error (.attributeError "logger")) ∧
    (∀ completions, ∃ e, NDBCRange.init completions = .error e) := by
  constructor
  · intro name ds rest acc
    simp [NDBCRange.processCompleted, NDBCRange.processStep, hasAttr_logger_eq_false]
  · intro completions
    rcases processCompleted_ok_or_error completions [] with h | ⟨e, h⟩
    · exact ⟨.noDataError "No NDBC datasets found in the given time interval.",
        by simp [NDBCRange.init, h]⟩
    · exact ⟨e, by simp [NDBCRange.init, h]⟩

/-- C3: absence of data is signaled as `NoDataError`: `NDBCStation`
construction raises it when the remote open fails, `Jason3Dataset._sss`
raises it when the requested month is not on the time axis, and
`NDBCRange` construction raises it when every station fetch came back
with no data, so that zero station datasets are found. -/
theorem c3_no_data_error_signaling :
    (∀ station e,
        NDBCStation.init station (.error e)
          = .error (.noDataError ("No NDBC dataset found at " ++ stationUrl station))) ∧
    (∀ inst dataTime,
        ({ year := dataTime.year, month := dataTime.month, day := 16 } : PyDatetime)
            ∉ inst.env.times →
        Jason3Dataset.sssData inst dataTime
          = .error (.noDataError "No data exists for the requested time.")) ∧
    (∀ completions,
        (∀ p ∈ completions, ∃ m, p.2 = FetchOutcome.failure (.noDataError m)) →
        NDBCRange.init completions
          = .error (.noDataError "No NDBC datasets found in the given time interval.")) := by
  refine ⟨fun station e => rfl, fun inst dataTime h => ?_, fun completions h => ?_⟩
  · simp [Jason3Dataset.sssData, h]
  · have h2 := processCompleted_all_noData completions h []
    simp [NDBCRange.init, h2]

/-- Witness for C3 at concrete inputs: a failed station open, a request
for a month absent from the example dataset, and a completion list whose
only fetch raised `NoDataError`. -/
theorem c3_no_data_error_signaling_witness :
    NDBCStation.init "46025" (.error (.other "OSError"))
        = .error (.noDataError ("No NDBC dataset found at " ++ stationUrl "46025")) ∧
    Jason3Dataset.sssData { env := exampleEnv, selLons := [], selLats := [] }
        { year := 2019, month := 1, day := 5 }
        = .error (.noDataError "No data exists for the requested time.") ∧
    NDBCRange.init [("46025", .failure (.noDataError "no data"))]
        = .error (.noDataError "No NDBC datasets found in the given time interval.") := by
  have h := c3_no_data_error_signaling
  refine ⟨h.1 "46025" (.other "OSError"), h.2.1 _ _ (by decide), h.2.2 _ ?_⟩
  intro p hp
  rcases List.mem_singleton.mp hp with rfl
  exact ⟨"no data", rfl⟩

/-- C4: the claim that `write_vector` writes one record per fetched
station fails on the code.  `write_vector` reads `self.logger` (line
184), which is never assigned on `NDBCRange`, so it raises
`AttributeError` before building any record: with one station in the
dict, zero records are written instead of one.  Were the attribute
bound (the evident intent, as in `NDBCStation`), exactly one record per
station would be written. -/
theorem c4_write_vector_logger_bug :
    NDBCRange.write_vector [("46025", exampleStation)] 0 100
        = .error (.attributeError "logger") ∧
    (NDBCRange.writeVectorWith (some false) [("46025", exampleStation)] 0 100).map
        List.length = .ok 1 := by
  exact ⟨rfl, rfl⟩

/-- Unfolding `listSum` over a cons via the fold accumulator. -/
theorem listSum_foldl (xs : List Rat) (a : Rat) :
    xs.foldl (· + ·) a = a + listSum xs := by
  induction xs generalizing a with
  | nil => simp [listSum]
  | cons x xs ih =>
      have h1 : (x :: xs).foldl (· + ·) a = (a + x) + listSum xs := by
        rw [List.foldl_cons, ih (a + x)]
      have h2 : listSum (x :: xs) = (0 + x) + listSum xs := by
        simp only [listSum, List.foldl_cons]
        rw [ih (0 + x)]
        simp [listSum]
      rw [h1, h2]
      ring

/-- The masked-aware fold of `numpy.ma` sums exactly the unmasked
values. -/
theorem maSum_foldl (xs : List Sample) (a : Rat) :
    xs.foldl (fun s p => if p.2 then s else s + p.1) a
      = a + listSum (unmaskedValues xs) := by
  induction xs generalizing a with
  | nil => simp [unmaskedValues, listSum]
  | cons p xs ih =>
      obtain ⟨x, m⟩ := p
      match m with
      | true =>
          show xs.foldl _ a = a + listSum (unmaskedValues ((x, true) :: xs))
          rw [ih a]
          simp [unmaskedValues]
      | false =>
          show xs.foldl _ (a + x) = a + listSum (unmaskedValues ((x, false) :: xs))
          rw [ih (a + x)]
          have : unmaskedValues ((x, false) :: xs) = x :: unmaskedValues xs := by
            simp [unmaskedValues]
          rw [this]
          show a + x + listSum (unmaskedValues xs)
              = a + (x :: unmaskedValues xs).foldl (· + ·) 0
          show a + x + listSum (unmaskedValues xs)
              = a + (unmaskedValues xs).foldl (· + ·) (0 + x)
          rw [listSum_foldl (unmaskedValues xs) (0 + x)]
          ring

/-- `numpy.ma` sum equals the plain sum of the unmasked values. -/
theorem maSum_eq (xs : List Sample) : maSum xs = listSum (unmaskedValues xs) := by
  simpa using maSum_foldl xs 0

/-- `numpy.ma` count equals the number of unmasked values. -/
theorem maCount_eq (xs : List Sample) : maCount xs = (unmaskedValues xs).length := by
  simp [maCount, unmaskedValues]

/-- `numpy.ma.mean` equals the arithmetic mean of the unmasked values. -/
theorem maMean_eq (xs : List Sample) :
    maMean xs = listSum (unmaskedValues xs) / (unmaskedValues xs).length := by
  rw [maMean, maSum_eq, maCount_eq]

/-- When each requested variable has a series, `recordProps` succeeds and
the property of each variable is the `numpy.ma` mean of its series. -/
theorem recordProps_ok_lookup (data : String → Option (List Sample)) :
    ∀ vs : List String, (∀ v ∈ vs, (data v).isSome = true) →
      ∃ ps, NDBCRange.recordProps data vs = .ok ps ∧
        ∀ v xs, v ∈ vs → data v = some xs → ps.lookup v = some (maMean xs) := by
  intro vs
  induction vs with
  | nil =>
      exact fun _ => ⟨[], rfl, fun v xs hv _ => absurd hv (List.not_mem_nil v)⟩
  | cons v vs ih =>
      intro h
      obtain ⟨xs0, hxs0⟩ :=
        Option.isSome_iff_exists.mp (h v (List.mem_cons_self v vs))
      obtain ⟨ps, hps, hlook⟩ := ih fun w hw => h w (List.mem_cons_of_mem _ hw)
      refine ⟨(v, maMean xs0) :: ps, ?_, ?_⟩
      · simp [NDBCRange.recordProps, hxs0, floatMaMean, hps]
      · intro w xs hw hxs
        rcases List.mem_cons.mp hw with rfl | hw'
        · rw [hxs0] at hxs
          injection hxs with h'
          subst h'
          simp [List.lookup]
        · by_cases hwv : w = v
          · subst hwv
            rw [hxs0] at hxs
            injection hxs with h'
            subst h'
            simp [List.lookup]
          · have : (w == v) = false := beq_false_of_ne hwv
            simp [List.lookup, this]
            exact hlook w xs hw' hxs

/-- C5: each averaged measurement property of a record built by
`write_vector` equals the arithmetic mean of the non-masked input values
of that variable over the time slice selected by `NDBCStation.data`. -/
theorem c5_record_mean_of_unmasked (name : String) (st : StationDataset)
    (startT endT : Int) (v : String) (xs : List Sample)
    (hv : NDBCStation.data st startT endT v = some xs)
    (hc : 0 < maCount xs) :
    (NDBCRange.makeRecord name st (NDBCStation.data st startT endT)).map
        (fun r => r.props.lookup v)
      = .ok (some (listSum (unmaskedValues xs) / (unmaskedValues xs).length)) := by
  have hmem : v ∈ MEASUREMENT_VARIABLES ∧
      NDBCStation.npSearchsorted st.timeData startT
        < NDBCStation.npSearchsorted st.timeData endT := by
    by_contra hn
    simp [NDBCStation.data, hn] at hv
  have hall : ∀ w ∈ MEASUREMENT_VARIABLES,
      (NDBCStation.data st startT endT w).isSome = true := by
    intro w hw
    simp [NDBCStation.data, hw, hmem.2]
  obtain ⟨ps, hps, hlook⟩ := recordProps_ok_lookup _ MEASUREMENT_VARIABLES hall
  have hv2 := hlook v xs hmem.1 hv
  simp [NDBCRange.makeRecord, hps, hv2, maMean_eq, Except.map]

/-- Witness for C5: the `salinity` property of the record for the example
station over the whole interval is the mean `(1 + 3) / 2` of its two
unmasked samples, the masked sample being excluded. -/
theorem c5_record_mean_of_unmasked_witness :
    (NDBCRange.makeRecord "46025" exampleStation
        (NDBCStation.data exampleStation 0 100)).map
        (fun r => r.props.lookup "salinity")
      = .ok (some (listSum (unmaskedValues [(1, false), (3, false), (100, true)]) /
          (unmaskedValues [(1, false), (3, false), (100, true)]).length)) := by
  exact c5_record_mean_of_unmasked "46025" exampleStation 0 100 "salinity"
    [(1, false), (3, false), (100, true)] (by decide) (by decide)

/-- C6 counterexample: on a concrete granule (half-degree grid,
descending latitudes) whose study-area polygon has bounds
`(0, 0, 1, 1)`, the raster written by `write_rasters` has georeferenced
bounds `(0, 5/2, 3/2, 1)`: only the west and north edges agree with the
configured study-area bounds. -/
theorem c6_raster_bounds_cex :
    (Jason3Dataset.init Jason3ClassState.initial exampleEnv).1.study_area_bounds
        = some { west := 0, south := 0, east := 1, north := 1 } ∧
    (Jason3Dataset.write_rasters
        (Jason3Dataset.init Jason3ClassState.initial exampleEnv).1
        (Jason3Dataset.init Jason3ClassState.initial exampleEnv).2.1 "out"
        { year := 2018, month := 12, day := 1 } ["sss"] "smos" (some (-9999))
        "GTiff").map (List.map rasterBounds)
      = .ok [some { west := 0, south := 5/2, east := 3/2, north := 1 }] ∧
    ({ west := 0, south := 5/2, east := 3/2, north := 1 } : GeoBounds)
      ≠ { west := 0, south := 0, east := 1, north := 1 } := by
  refine ⟨by with_unfolding_all rfl, by with_unfolding_all rfl,
    by with_unfolding_all decide⟩

/-- C6 amended: the transform of every raster written by `write_rasters`
is the class-level `study_area_transform`, which after a fresh
construction is `from_origin` of the study-area west and north edges and
the granule pixel sizes; the resulting raster bounds therefore share
only their west and north edges with the study-area bounds, while the
east and south edges are `west + lon_pixel_size * width` and
`north - lat_pixel_size * height`, which need not equal the study-area
east and south. -/
theorem c6_raster_bounds_amended :
    (∀ env,
        (Jason3Dataset.init Jason3ClassState.initial env).1.study_area_transform
          = some (fromOrigin (shapelyBounds env.polygon).west
              (shapelyBounds env.polygon).north
              (npMean (npDiff env.lons)) (npMean (npDiff env.lats)))) ∧
    (∀ cls inst out dataTime vns stem fv drv fs f,
        Jason3Dataset.write_rasters cls inst out dataTime vns stem fv drv
          = .ok fs →
        f ∈ fs → f.transform = cls.study_area_transform) ∧
    (∀ (h w : Nat) (west north px py : Rat),
        arrayBounds h w (fromOrigin west north px py)
          = { west := west, south := north - py * h,
              east := west + px * w, north := north }) := by
  refine ⟨fun env => rfl, ?_, ?_⟩
  · intro cls inst out dataTime vns stem fv drv
    induction vns with
    | nil =>
        intro fs f hw hf
        simp only [Jason3Dataset.write_rasters] at hw
        injection hw with hw
        subst hw
        exact absurd hf (List.not_mem_nil f)
    | cons v vs ih =>
        intro fs f hw hf
        rcases hd : Jason3Dataset.dataVar inst dataTime v with e | og
        · simp [Jason3Dataset.write_rasters, hd] at hw
        · match og with
          | none =>
              simp only [Jason3Dataset.write_rasters, hd] at hw
              exact ih fs f hw hf
          | some g =>
              by_cases hn : allNaN g = true
              · simp only [Jason3Dataset.write_rasters, hd, hn, if_pos] at hw
                exact ih fs f hw hf
              · simp only [Jason3Dataset.write_rasters, hd,
                  if_neg hn] at hw
                rcases hrec : Jason3Dataset.write_rasters cls inst out dataTime vs
                    stem fv drv with e' | fs'
                · rw [hrec] at hw
                  simp [Except.map] at hw
                · rw [hrec] at hw
                  simp only [Except.map] at hw
                  injection hw with hw
                  subst hw
                  rcases List.mem_cons.mp hf with rfl | hf'
                  · rfl
                  · exact ih fs' f hrec hf'
  · intro h w west north px py
    have hs : north + -(py * (h : Rat)) = north - py * h := by ring
    simp [arrayBounds, fromOrigin, hs]

/-- Witness for the amended C6: the raster written on the example granule
carries the class transform, and the bounds formula evaluates to
`(0, 5/2, 3/2, 1)` there. -/
theorem c6_raster_bounds_amended_witness :
    exampleRaster.transform
      = (Jason3Dataset.init Jason3ClassState.initial
          exampleEnv).1.study_area_transform ∧
    arrayBounds 3 3 (fromOrigin 0 1 (1/2) (-(1/2)))
      = { west := 0, south := 1 - -(1/2) * 3, east := 0 + 1/2 * 3,
          north := 1 } := by
  have h := c6_raster_bounds_amended
  constructor
  · exact h.2.1 (Jason3Dataset.init Jason3ClassState.initial exampleEnv).1
      (Jason3Dataset.init Jason3ClassState.initial exampleEnv).2.1 "out"
      { year := 2018, month := 12, day := 1 } ["sss"] "smos" (some (-9999))
      "GTiff" [exampleRaster] exampleRaster (by with_unfolding_all rfl)
      (List.mem_singleton.mpr rfl)
  · exact h.2.2 3 3 0 1 (1/2) (-(1/2))

/-- C7: the study-area polygon is loaded and the four class attributes
assigned exactly once, on the first construction; any construction from
the resulting class state performs zero polygon loads and leaves the
class state unchanged. -/
theorem c7_study_area_cached_once :
    (∀ env,
        (Jason3Dataset.init Jason3ClassState.initial env).2.2 = 1 ∧
        (Jason3Dataset.init Jason3ClassState.initial
            env).1.study_area_extent.isSome = true ∧
        (Jason3Dataset.init Jason3ClassState.initial
            env).1.study_area_bounds.isSome = true ∧
        (Jason3Dataset.init Jason3ClassState.initial
            env).1.study_area_transform.isSome = true ∧
        (Jason3Dataset.init Jason3ClassState.initial
            env).1.study_area_coordinates.isSome = true) ∧
    (∀ env env2,
        (Jason3Dataset.init (Jason3Dataset.init Jason3ClassState.initial env).1
            env2).1
          = (Jason3Dataset.init Jason3ClassState.initial env).1 ∧
        (Jason3Dataset.init (Jason3Dataset.init Jason3ClassState.initial env).1
            env2).2.2 = 0) := by
  constructor
  · intro env
    refine ⟨rfl, rfl, rfl, rfl, rfl⟩
  · intro env env2
    refine ⟨rfl, rfl⟩

/-- C8: for any variable other than `sss`, `data` returns `None` without
raising, and `write_rasters` skips the variable without writing a file;
it likewise skips a variable whose retrieved data is entirely NaN. -/
theorem c8_skip_non_sss_and_all_nan :
    (∀ inst dataTime varName, varName ≠ "sss" →
        Jason3Dataset.dataVar inst dataTime varName = .ok none) ∧
    (∀ cls inst out dataTime v vs stem fv drv, v ≠ "sss" →
        Jason3Dataset.write_rasters cls inst out dataTime (v :: vs) stem fv drv
          = Jason3Dataset.write_rasters cls inst out dataTime vs stem fv drv) ∧
    (∀ cls inst out dataTime vs stem fv drv g,
        Jason3Dataset.dataVar inst dataTime "sss" = .ok (some g) →
        allNaN g = true →
        Jason3Dataset.write_rasters cls inst out dataTime ("sss" :: vs) stem fv
            drv
          = Jason3Dataset.write_rasters cls inst out dataTime vs stem fv drv) := by
  refine ⟨fun inst dataTime varName hv => by simp [Jason3Dataset.dataVar, hv],
    ?_, ?_⟩
  · intro cls inst out dataTime v vs stem fv drv hv
    have hd : Jason3Dataset.dataVar inst dataTime v = .ok none := by
      simp [Jason3Dataset.dataVar, hv]
    simp [Jason3Dataset.write_rasters, hd]
  · intro cls inst out dataTime vs stem fv drv g hg hn
    simp [Jason3Dataset.write_rasters, hg, hn]

/-- Witness for C8: on the example dataset, writing the variables
`chlorophyll` (not `sss`) and `sss` with an empty spatial slice (whose
data is entirely NaN vacuously) produces no files. -/
theorem c8_skip_non_sss_and_all_nan_witness :
    Jason3Dataset.write_rasters Jason3ClassState.initial
        { env := exampleEnv, selLons := [], selLats := [] } "out"
        { year := 2018, month := 12, day := 1 } ["chlorophyll", "sss"] "smos"
        none "GTiff" = .ok [] := by
  have h := c8_skip_non_sss_and_all_nan
  have h1 := h.2.1 Jason3ClassState.initial
      { env := exampleEnv, selLons := [], selLats := [] } "out"
      { year := 2018, month := 12, day := 1 } "chlorophyll" ["sss"] "smos" none
      "GTiff" (by decide)
  have h2 := h.2.2 Jason3ClassState.initial
      { env := exampleEnv, selLons := [], selLats := [] } "out"
      { year := 2018, month := 12, day := 1 } [] "smos" none "GTiff" [] rfl rfl
  rw [h1, h2]
  rfl

/-- Setting a key then reading it back. -/
theorem dictGet_dictSet_self (d : List (String × PyVal)) (k : String) (v : PyVal) :
    dictGet k (dictSet d k v) = some v := by
  induction d with
  | nil => simp [dictSet, dictGet]
  | cons p rest ih =>
      obtain ⟨k2, v2⟩ := p
      by_cases h : k2 = k
      · subst h
        simp [dictSet, dictGet]
      · simp [dictSet, dictGet, h, ih]

/-- Overwriting a key twice keeps only the last value. -/
theorem dictSet_dictSet (d : List (String × PyVal)) (k : String) (v w : PyVal) :
    dictSet (dictSet d k v) k w = dictSet d k w := by
  induction d with
  | nil => simp [dictSet]
  | cons p rest ih =>
      obtain ⟨k2, v2⟩ := p
      by_cases h : k2 = k
      · subst h
        simp [dictSet]
      · simp [dictSet, h, ih]

/-- Writing back the value a key already holds changes nothing. -/
theorem dictSet_of_dictGet (d : List (String × PyVal)) (k : String) (v : PyVal)
    (h : dictGet k d = some v) : dictSet d k v = d := by
  induction d with
  | nil => simp [dictGet] at h
  | cons p rest ih =>
      obtain ⟨k2, v2⟩ := p
      by_cases hk : k2 = k
      · subst hk
        simp [dictGet] at h
        simp [dictSet, h]
      · simp [dictGet, hk] at h
        simp [dictSet, hk, ih h]

/-- A key absent from the key list reads as `None`. -/
theorem dictGet_eq_none (d : List (String × PyVal)) (k : String)
    (h : k ∉ d.map Prod.fst) : dictGet k d = none := by
  induction d with
  | nil => rfl
  | cons p rest ih =>
      obtain ⟨k2, v2⟩ := p
      simp only [List.map_cons, List.mem_cons] at h
      push_neg at h
      have hk : ¬ k2 = k := fun hh => h.1 hh.symm
      simp [dictGet, hk, ih h.2]

/-- Setting a fresh key appends it. -/
theorem dictSet_of_none (d : List (String × PyVal)) (k : String) (v : PyVal)
    (h : dictGet k d = none) : dictSet d k v = d ++ [(k, v)] := by
  induction d with
  | nil => rfl
  | cons p rest ih =>
      obtain ⟨k2, v2⟩ := p
      by_cases hk : k2 = k
      · subst hk
        simp [dictGet] at h
      · simp [dictGet, hk] at h
        simp [dictSet, hk, ih h]

/-- Path lookup splits along list append. -/
theorem getPath_append (d : List (String × PyVal)) (p q : List String) :
    getPath d (p ++ q) = (getPath d p).bind fun s => getPath s q := by
  induction p generalizing d with
  | nil => simp [getPath]
  | cons f fs ih =>
      simp only [List.cons_append, getPath]
      cases hg : dictGet f d with
      | none => simp
      | some v =>
          cases v with
          | pynone => simp
          | pydict sub => simpa using ih sub

/-- A path that resolves can be updated. -/
theorem updatePath_isSome (d : List (String × PyVal)) (p : List String)
    (D S : List (String × PyVal)) (h : getPath d p = some D) :
    ∃ d2, updatePath d p S = some d2 := by
  induction p generalizing d with
  | nil => exact ⟨S, rfl⟩
  | cons f fs ih =>
      simp only [getPath] at h
      cases hg : dictGet f d with
      | none => rw [hg] at h; simp at h
      | some v =>
          cases v with
          | pynone => rw [hg] at h; simp at h
          | pydict sub =>
              rw [hg] at h
              simp only at h
              obtain ⟨d2, hd2⟩ := ih sub h
              exact ⟨dictSet d f (.pydict d2), by simp [updatePath, hg, hd2]⟩

/-- After an update, the path resolves to the new dict. -/
theorem getPath_updatePath (d : List (String × PyVal)) (p : List String)
    (S d2 : List (String × PyVal)) (h : updatePath d p S = some d2) :
    getPath d2 p = some S := by
  induction p generalizing d d2 with
  | nil =>
      simp only [updatePath] at h
      injection h with h
      subst h
      rfl
  | cons f fs ih =>
      simp only [updatePath] at h
      cases hg : dictGet f d with
      | none => rw [hg] at h; simp at h
      | some v =>
          cases v with
          | pynone => rw [hg] at h; simp at h
          | pydict sub =>
              rw [hg] at h
              simp only [Option.map_eq_some'] at h
              obtain ⟨sub2, hsub2, hd2⟩ := h
              subst hd2
              simp [getPath, dictGet_dictSet_self]
              exact ih sub sub2 hsub2

/-- Two successive updates at the same path collapse to the second. -/
theorem updatePath_updatePath (d : List (String × PyVal)) (p : List String)
    (S T d2 : List (String × PyVal)) (h : updatePath d p S = some d2) :
    updatePath d2 p T = updatePath d p T := by
  induction p generalizing d d2 with
  | nil => rfl
  | cons f fs ih =>
      simp only [updatePath] at h
      cases hg : dictGet f d with
      | none => rw [hg] at h; simp at h
      | some v =>
          cases v with
          | pynone => rw [hg] at h; simp at h
          | pydict sub =>
              rw [hg] at h
              simp only [Option.map_eq_some'] at h
              obtain ⟨sub2, hsub2, hd2⟩ := h
              subst hd2
              simp only [updatePath, dictGet_dictSet_self, hg]
              rw [ih sub sub2 hsub2]
              cases updatePath sub fs T with
              | none => rfl
              | some x => simp [dictSet_dictSet]

/-- Updating below a key of the dict at a path equals updating the path
with the key rewritten. -/
theorem updatePath_concat (d : List (String × PyVal)) (p : List String)
    (x : String) (D B T : List (String × PyVal))
    (hD : getPath d p = some D) (hx : dictGet x D = some (.pydict B)) :
    updatePath d (p ++ [x]) T = updatePath d p (dictSet D x (.pydict T)) := by
  induction p generalizing d with
  | nil =>
      simp only [getPath] at hD
      injection hD with hD
      subst hD
      simp [updatePath, hx]
  | cons f fs ih =>
      simp only [getPath] at hD
      cases hg : dictGet f d with
      | none => rw [hg] at hD; simp at hD
      | some v =>
          cases v with
          | pynone => rw [hg] at hD; simp at hD
          | pydict sub =>
              rw [hg] at hD
              simp only at hD
              simp only [List.cons_append, updatePath, hg, List.append_eq]
              rw [ih sub hD]

/-- Updating a path with the dict it already holds changes nothing. -/
theorem updatePath_self (d : List (String × PyVal)) (p : List String)
    (D : List (String × PyVal)) (h : getPath d p = some D) :
    updatePath d p D = some d := by
  induction p generalizing d with
  | nil =>
      simp only [getPath] at h
      injection h with h
      subst h
      rfl
  | cons f fs ih =>
      simp only [getPath] at h
      cases hg : dictGet f d with
      | none => rw [hg] at h; simp at h
      | some v =>
          cases v with
          | pynone => rw [hg] at h; simp at h
          | pydict sub =>
              rw [hg] at h
              simp only at h
              simp [updatePath, hg, ih sub h, dictSet_of_dictGet d f _ hg]

/-- `setPath` is `updatePath` with the key rewritten in the dict at the
path. -/
theorem setPath_eq_updatePath (d : List (String × PyVal)) (p : List String)
    (k : String) (v : PyVal) (D : List (String × PyVal))
    (h : getPath d p = some D) :
    setPath d p k v = updatePath d p (dictSet D k v) := by
  induction p generalizing d with
  | nil =>
      simp only [getPath] at h
      injection h with h
      subst h
      rfl
  | cons f fs ih =>
      simp only [getPath] at h
      cases hg : dictGet f d with
      | none => rw [hg] at h; simp at h
      | some v2 =>
          cases v2 with
          | pynone => rw [hg] at h; simp at h
          | pydict sub =>
              rw [hg] at h
              simp only at h
              simp only [setPath, updatePath, hg]
              rw [ih sub h]

/-- Walk processing splits along list append. -/
theorem processWalk_append (xs ys : List (List String × List String))
    (d : List (String × PyVal)) :
    processWalk (xs ++ ys) d = (processWalk xs d).bind fun d2 => processWalk ys d2 := by
  induction xs generalizing d with
  | nil => simp [processWalk]
  | cons e rest ih =>
      obtain ⟨folders, files⟩ := e
      cases hl : folders.getLast? with
      | none => simp [processWalk, hl]
      | some last =>
          cases hs : setPath d folders.dropLast last
              (.pydict (files.map fun f => (f, .pynone))) with
          | none => simp [processWalk, hl, hs]
          | some d2 => simp [processWalk, hl, hs, ih d2]

/-- `fileNames` on a file cons. -/
theorem fileNames_cons_file (n : String) (rest : List FSEntry) :
    fileNames (.file n :: rest) = n :: fileNames rest := rfl

/-- `fileNames` on a directory cons. -/
theorem fileNames_cons_dir (n : String) (ccs rest : List FSEntry) :
    fileNames (.dir n ccs :: rest) = fileNames rest := rfl

/-- Subdirectory names form a sublist of all child names. -/
theorem dirNames_sublist (cs : List FSEntry) :
    List.Sublist (dirNames cs) (cs.map FSEntry.name) := by
  induction cs with
  | nil => simp [dirNames]
  | cons c rest ih =>
      cases c with
      | file n => simpa [dirNames, FSEntry.name] using ih.cons n
      | dir n ccs => simpa [dirNames, FSEntry.name] using ih.cons₂ n

/-- File names form a sublist of all child names. -/
theorem fileNames_sublist (cs : List FSEntry) :
    List.Sublist (fileNames cs) (cs.map FSEntry.name) := by
  induction cs with
  | nil => simp [fileNames]
  | cons c rest ih =>
      cases c with
      | file n => simpa [fileNames_cons_file, FSEntry.name] using ih.cons₂ n
      | dir n ccs => simpa [fileNames_cons_dir, FSEntry.name] using ih.cons n

/-- Under pairwise-distinct child names, no subdirectory name is also a
file name. -/
theorem dirNames_disjoint_fileNames (cs : List FSEntry)
    (h : (cs.map FSEntry.name).Nodup) :
    ∀ x ∈ dirNames cs, x ∉ fileNames cs := by
  induction cs with
  | nil => intro x hx; simp [dirNames] at hx
  | cons c rest ih =>
      cases c with
      | file n =>
          simp only [List.map_cons, FSEntry.name, List.nodup_cons] at h
          obtain ⟨hc, hrest⟩ := h
          intro x hx
          simp only [dirNames] at hx
          rw [fileNames_cons_file]
          intro hmem
          rcases List.mem_cons.mp hmem with heq | hmem2
          · subst heq
            exact hc ((dirNames_sublist rest).subset hx)
          · exact ih hrest x hx hmem2
      | dir n ccs =>
          simp only [List.map_cons, FSEntry.name, List.nodup_cons] at h
          obtain ⟨hc, hrest⟩ := h
          intro x hx
          rw [fileNames_cons_dir]
          simp only [dirNames, List.mem_cons] at hx
          rcases hx with heq | hx2
          · subst heq
            intro hmem
            exact hc ((fileNames_sublist rest).subset hmem)
          · exact ih hrest x hx2

/-- The keys of the files dict are the file names. -/
theorem fileEntries_keys (cs : List FSEntry) :
    (fileEntries cs).map Prod.fst = fileNames cs := by
  simp only [fileEntries, List.map_map]
  have h : (Prod.fst ∘ fun f : String => (f, PyVal.pynone)) = id := rfl
  rw [h, List.map_id]

/-- Every entry has positive size. -/
theorem entrySize_pos (c : FSEntry) : 1 ≤ entrySize c := by
  cases c with
  | file n => exact le_refl 1
  | dir n cs => exact Nat.le_add_right 1 (listSize cs)

/-- Main invariant of `get_directory_structure`: processing the walk of a
directory below path `p` rewrites the dict at `p` by binding the
directory's name to its mirrored contents; processing the walks of a
children listing appends their mirrored entries to the dict at `p`. -/
theorem processWalk_walk (N : Nat) :
    (∀ n cs, entrySize (FSEntry.dir n cs) ≤ N →
        (cs.map FSEntry.name).Nodup → namesOkList cs = true →
        ∀ p d D, getPath d p = some D →
          processWalk (walkFrom p (FSEntry.dir n cs)) d
            = updatePath d p (dictSet D n (.pydict (mirrorDir cs)))) ∧
    (∀ l, listSize l ≤ N → namesOkList l = true → (dirNames l).Nodup →
        ∀ p d B, getPath d p = some B →
          (∀ x ∈ dirNames l, x ∉ B.map Prod.fst) →
          processWalk (walkChildren p l) d
            = updatePath d p (B ++ mirrorSubdirs l)) := by
  induction N with
  | zero =>
      constructor
      · intro n cs hsize
        exfalso
        simp only [entrySize] at hsize
        omega
      · intro l hsize hok hnodup p d B hget hfresh
        match l with
        | [] =>
            simp only [walkChildren, processWalk, mirrorSubdirs, List.append_nil]
            exact (updatePath_self d p B hget).symm
        | c :: rest =>
            exfalso
            have h1 := entrySize_pos c
            simp only [listSize] at hsize
            omega
  | succ N ih =>
      have hmain : ∀ n cs, entrySize (FSEntry.dir n cs) ≤ N + 1 →
          (cs.map FSEntry.name).Nodup → namesOkList cs = true →
          ∀ p d D, getPath d p = some D →
            processWalk (walkFrom p (FSEntry.dir n cs)) d
              = updatePath d p (dictSet D n (.pydict (mirrorDir cs))) := by
        intro n cs hsize hnodup hok p d D hget
        have hsize2 : listSize cs ≤ N := by
          simp only [entrySize] at hsize
          omega
        have hF : setPath d p n (.pydict ((fileNames cs).map fun f => (f, .pynone)))
            = updatePath d p (dictSet D n (.pydict (fileEntries cs))) :=
          setPath_eq_updatePath d p n _ D hget
        obtain ⟨d1, hd1⟩ := updatePath_isSome d p D
          (dictSet D n (.pydict (fileEntries cs))) hget
        have hget1 : getPath d1 p
            = some (dictSet D n (.pydict (fileEntries cs))) :=
          getPath_updatePath d p _ d1 hd1
        have hget1n : getPath d1 (p ++ [n]) = some (fileEntries cs) := by
          rw [getPath_append, hget1]
          simp [getPath, dictGet_dictSet_self]
        have hfresh1 : ∀ x ∈ dirNames cs, x ∉ (fileEntries cs).map Prod.fst := by
          rw [fileEntries_keys]
          exact dirNames_disjoint_fileNames cs hnodup
        have hchild := ih.2 cs hsize2 hok (hnodup.sublist (dirNames_sublist cs))
          (p ++ [n]) d1 (fileEntries cs) hget1n hfresh1
        have hcat := updatePath_concat d1 p n
          (dictSet D n (.pydict (fileEntries cs))) (fileEntries cs)
          (fileEntries cs ++ mirrorSubdirs cs) hget1 (dictGet_dictSet_self D n _)
        simp only [walkFrom]
        simp only [processWalk, List.getLast?_concat, List.dropLast_concat]
        simp only [hF, hd1]
        rw [hchild, hcat, dictSet_dictSet]
        exact updatePath_updatePath d p _ _ d1 hd1
      refine ⟨hmain, ?_⟩
      intro l
      induction l with
      | nil =>
          intro hsize hok hnodup p d B hget hfresh
          simp only [walkChildren, processWalk, mirrorSubdirs, List.append_nil]
          exact (updatePath_self d p B hget).symm
      | cons c rest ihl =>
          intro hsize hok hnodup p d B hget hfresh
          cases c with
          | file m =>
              have hsize2 : listSize rest ≤ N + 1 := by
                simp only [listSize] at hsize
                have := entrySize_pos (FSEntry.file m)
                omega
              have hok2 : namesOkList rest = true := by
                simpa [namesOkList] using hok
              have hnodup2 : (dirNames rest).Nodup := by
                simpa [dirNames] using hnodup
              have hfresh2 : ∀ x ∈ dirNames rest, x ∉ B.map Prod.fst := by
                intro x hx
                exact hfresh x (by simpa [dirNames] using hx)
              have hstep : walkChildren p (FSEntry.file m :: rest)
                  = walkChildren p rest := by
                simp [walkChildren, walkFrom]
              rw [hstep]
              have hmir : mirrorSubdirs (FSEntry.file m :: rest)
                  = mirrorSubdirs rest := by
                simp [mirrorSubdirs]
              rw [hmir]
              exact ihl hsize2 hok2 hnodup2 p d B hget hfresh2
          | dir m ccs =>
              simp only [namesOkList, Bool.and_eq_true, decide_eq_true_eq] at hok
              obtain ⟨⟨hccs_nodup, hccs_ok⟩, hrest_ok⟩ := hok
              simp only [dirNames, List.nodup_cons] at hnodup
              obtain ⟨hm_not, hrest_nodup⟩ := hnodup
              have hm_fresh : m ∉ B.map Prod.fst :=
                hfresh m (List.mem_cons_self m (dirNames rest))
              have hsize_c : entrySize (FSEntry.dir m ccs) ≤ N + 1 := by
                simp only [listSize] at hsize
                omega
              have hhead := hmain m ccs hsize_c hccs_nodup hccs_ok p d B hget
              have happend : dictSet B m (.pydict (mirrorDir ccs))
                  = B ++ [(m, .pydict (mirrorDir ccs))] :=
                dictSet_of_none B m _ (dictGet_eq_none B m hm_fresh)
              obtain ⟨d1, hd1⟩ := updatePath_isSome d p B
                (dictSet B m (.pydict (mirrorDir ccs))) hget
              have hget1 : getPath d1 p
                  = some (B ++ [(m, PyVal.pydict (mirrorDir ccs))]) := by
                rw [← happend]
                exact getPath_updatePath d p _ d1 hd1
              have hsize_rest : listSize rest ≤ N + 1 := by
                simp only [listSize] at hsize
                have := entrySize_pos (FSEntry.dir m ccs)
                omega
              have hfresh_rest : ∀ x ∈ dirNames rest,
                  x ∉ (B ++ [(m, PyVal.pydict (mirrorDir ccs))]).map Prod.fst := by
                intro x hx hmem
                rw [List.map_append] at hmem
                rcases List.mem_append.mp hmem with hxB | hxm
                · exact hfresh x (List.mem_cons_of_mem m hx) hxB
                · simp at hxm
                  subst hxm
                  exact hm_not hx
              have hrest := ihl hsize_rest hrest_ok hrest_nodup p d1 _ hget1
                hfresh_rest
              have hstep : walkChildren p (FSEntry.dir m ccs :: rest)
                  = walkFrom p (FSEntry.dir m ccs) ++ walkChildren p rest := by
                simp [walkChildren]
              rw [hstep, processWalk_append, hhead, hd1]
              simp only [Option.some_bind]
              rw [hrest, updatePath_updatePath d p _ _ d1 hd1]
              congr 1
              simp [mirrorSubdirs, mirrorDir]

/-- C9: for a root directory whose tree has pairwise-distinct sibling
names, `get_directory_structure` returns a dict with exactly one
top-level key — the final path component of the root — whose nested
dicts mirror the subdirectory tree and map every file name to `None`. -/
theorem c9_directory_structure_mirror (n : String) (cs : List FSEntry)
    (h : namesOkList [FSEntry.dir n cs] = true) :
    get_directory_structure (.dir n cs)
      = some [(n, .pydict (mirrorDir cs))] := by
  have h2 : (cs.map FSEntry.name).Nodup ∧ namesOkList cs = true := by
    simpa [namesOkList] using h
  have hm := (processWalk_walk (entrySize (FSEntry.dir n cs))).1 n cs le_rfl
    h2.1 h2.2 [] [] [] rfl
  show processWalk (walkFrom [] (FSEntry.dir n cs)) [] = _
  rw [hm]
  rfl

/-- Witness for C9 on the example tree: one top-level key `output`, its
file mapped to `None`, and the `wcofs` subdirectory mirrored. -/
theorem c9_directory_structure_mirror_witness :
    get_directory_structure exampleTree
      = some [("output", .pydict [("index.html", .pynone),
          ("wcofs", .pydict [("a.tiff", .pynone)])])] := by
  have h := c9_directory_structure_mirror "output"
      [.file "index.html", .dir "wcofs" [.file "a.tiff"]]
      (by simp only [namesOkList]; decide)
  rw [show exampleTree = FSEntry.dir "output"
      [.file "index.html", .dir "wcofs" [.file "a.tiff"]] from rfl, h]
  simp [mirrorDir, mirrorSubdirs, fileEntries, fileNames]

end PyOFS
